import Mathlib

/-!
Verification of the nutrition aggregation and caching engine
(`src/server/src/services/nutrition.ts` and the nutrient resolver /
meal-total helpers in `src/client/app/(tabs)/camera.tsx`).

The JavaScript values that matter to the claims are embedded shallowly:
JS numbers become rationals (`ℚ`), `Math.round` becomes `⌊q + 1/2⌋`,
objects become association lists, and `Map`s become association lists of
key/entry pairs.  Fallible operations return `Except`.
-/

/-! ## The client-side nutrient field resolver (`camera.tsx`) -/

/-- A JavaScript value stored in a loosely-typed nutrient record.
`str (some q)` is a string for which `parseFloat` yields `q`;
`str none` is a string for which `parseFloat` yields `NaN`;
`other` covers `null`, objects, booleans and `NaN`. -/
inductive JVal where
  | num (q : ℚ)
  | str (p : Option ℚ)
  | other

/-- A loosely-typed nutrient record (`AnalysisData | Ingredient`):
a JS object seen as an association list from field name to value. -/
def NutrientRecord := List (String × JVal)

/-- JavaScript `Math.round`: round half toward positive infinity. -/
def jround (q : ℚ) : ℤ := ⌊q + 1/2⌋

/-- Auxiliary for `jsReplace`: delete the first occurrence of `pat`
from a character list. -/
def replaceFirstChars (pat : List Char) : List Char → List Char
  | [] => []
  | c :: rest =>
      if pat.isPrefixOf (c :: rest) then (c :: rest).drop pat.length
      else c :: replaceFirstChars pat rest

/-- JavaScript `s.replace(pat, "")` with a string pattern: deletes the
first occurrence of `pat` from `s` (identity when `pat` does not occur). -/
def jsReplace (s pat : String) : String := ⟨replaceFirstChars pat.data s.data⟩

/-- The candidate field names tried by `getNutritionValue` in
`camera.tsx` (lines 208–214): the exact name first, then progressively
unit-stripped variants. -/
def variations (field : String) : List String :=
  [field, jsReplace field "_g", jsReplace field "_mg",
   jsReplace field "g", jsReplace field "mg"]

/-- One iteration of the candidate loop in `getNutritionValue`
(lines 216–224): a positive number is returned rounded; a
`parseFloat`-parseable string is returned rounded regardless of its
sign; anything else (missing field, non-positive number, unparseable
string, other values) yields `none` and resolution continues. -/
def tryVariation (data : NutrientRecord) (v : String) : Option ℤ :=
  match data.lookup v with
  | some (JVal.num q) => if 0 < q then some (jround q) else none
  | some (JVal.str (some q)) => some (jround q)
  | _ => none

/-- The candidate loop of `getNutritionValue`: the first candidate that
resolves wins; otherwise `0`. -/
def resolveList (data : NutrientRecord) : List String → ℤ
  | [] => 0
  | v :: vs =>
      match tryVariation data v with
      | some n => n
      | none => resolveList data vs

/-- The resolver `getNutritionValue(data, field)` from `camera.tsx`
(lines 202–226):
`0` when `data` is undefined, otherwise the candidate loop over
`variations field`. -/
def getNutritionValue (data : Option NutrientRecord) (field : String) : ℤ :=
  match data with
  | none => 0
  | some d => resolveList d (variations field)

/-! Concrete evaluations of `jsReplace` on the field names used in the
witnesses below, proved once and fed to `simp`. -/

lemma jsReplace_protein_g_g : jsReplace "protein_g" "_g" = "protein" := by decide

lemma jsReplace_protein_g_mg : jsReplace "protein_g" "_mg" = "protein_g" := by decide

lemma jsReplace_protein_g_gl : jsReplace "protein_g" "g" = "protein_" := by decide

lemma jsReplace_protein_g_mgl : jsReplace "protein_g" "mg" = "protein_g" := by decide

lemma jsReplace_protein_a : jsReplace "protein" "_g" = "protein" := by decide

lemma jsReplace_protein_b : jsReplace "protein" "_mg" = "protein" := by decide

lemma jsReplace_protein_c : jsReplace "protein" "g" = "protein" := by decide

lemma jsReplace_protein_d : jsReplace "protein" "mg" = "protein" := by decide

/-- If no candidate in the list resolves, the loop returns `0`. -/
lemma resolveList_eq_zero (d : NutrientRecord) :
    ∀ l : List String, (∀ v ∈ l, tryVariation d v = none) → resolveList d l = 0 := by
  intro l
  induction l with
  | nil => intro _; rfl
  | cons v vs ih =>
      intro h
      have hv : tryVariation d v = none := h v (List.mem_cons_self v vs)
      simp only [resolveList, hv]
      exact ih fun w hw => h w (List.mem_cons_of_mem v hw)

/-- C5: when the queried field is present under its exact canonical name
with a positive numeric value, `getNutritionValue` returns that value
rounded to the nearest integer, regardless of any other alias fields in
the record, because the exact field name is the first candidate tried. -/
theorem claim_C5_exact_field_priority (d : NutrientRecord) (f : String) (q : ℚ)
    (hq : d.lookup f = some (JVal.num q)) (hpos : 0 < q) :
    getNutritionValue (some d) f = jround q := by
  simp only [getNutritionValue, variations, resolveList, tryVariation, hq,
    if_pos hpos]

/-- Witness for C5: a record holding `protein_g = 2.5` and a conflicting
alias `protein = 7` resolves `protein_g` to `round(2.5) = 3`. -/
theorem claim_C5_exact_field_priority_witness :
    getNutritionValue
      (some [("protein_g", JVal.num (5/2)), ("protein", JVal.num 7)])
      "protein_g" = 3 := by
  have h := claim_C5_exact_field_priority
    [("protein_g", JVal.num (5/2)), ("protein", JVal.num 7)]
    "protein_g" (5/2) rfl (by norm_num)
  rw [h]
  norm_num [jround]

/-- C3 counterexample: the claim says a zero value stored as a
numeric-parseable string is treated as absent and resolution continues
to the next candidate, which here would yield the alias value `5`.  The
code instead returns the parsed string value `0` immediately: the
string branch of `getNutritionValue` has no positivity test. -/
theorem claim_C3_counterexample :
    getNutritionValue
      (some [("protein_g", JVal.str (some 0)), ("protein", JVal.num 5)])
      "protein_g" = 0 ∧
    getNutritionValue (some [("protein", JVal.num 5)]) "protein_g" = 5 := by
  constructor <;>
    · simp [getNutritionValue, variations, resolveList, tryVariation,
        List.lookup, jsReplace_protein_g_g, jsReplace_protein_g_mg,
        jsReplace_protein_g_gl, jsReplace_protein_g_mgl]
      norm_num [jround]

/-- C3 (amended): a zero or negative value stored as a *number* is
treated as absent and resolution continues to the remaining candidates;
a numeric-parseable *string* held by the exact field name is parsed and
returned rounded regardless of its sign (including zero); and when no
candidate resolves, `getNutritionValue` returns `0` and never fails. -/
theorem claim_C3_zero_handling (d : NutrientRecord) (f : String) :
    (∀ q : ℚ, d.lookup f = some (JVal.num q) → q ≤ 0 →
      getNutritionValue (some d) f =
        resolveList d [jsReplace f "_g", jsReplace f "_mg",
          jsReplace f "g", jsReplace f "mg"]) ∧
    (∀ q : ℚ, d.lookup f = some (JVal.str (some q)) →
      getNutritionValue (some d) f = jround q) ∧
    ((∀ v ∈ variations f, tryVariation d v = none) →
      getNutritionValue (some d) f = 0) := by
  refine ⟨fun q hq hle => ?_, fun q hq => ?_, fun h => ?_⟩
  · simp only [getNutritionValue, variations, resolveList, tryVariation, hq,
      if_neg (not_lt.mpr hle)]
  · simp only [getNutritionValue, variations, resolveList, tryVariation, hq]
  · exact resolveList_eq_zero d _ h

/-- Witness for C3 (amended): `protein_g = -2` (a non-positive number)
is skipped and the alias `protein = 5` resolves. -/
theorem claim_C3_zero_handling_witness :
    getNutritionValue
      (some [("protein_g", JVal.num (-2)), ("protein", JVal.num 5)])
      "protein_g" = 5 := by
  have h := (claim_C3_zero_handling
    [("protein_g", JVal.num (-2)), ("protein", JVal.num 5)] "protein_g").1
    (-2) rfl (by norm_num)
  rw [h]
  simp [resolveList, tryVariation, List.lookup, jsReplace_protein_g_g,
    jsReplace_protein_g_mg, jsReplace_protein_g_gl, jsReplace_protein_g_mgl]
  norm_num [jround]

/-! ## Meal-total computation (`calculateTotalNutrition`, `camera.tsx` 651–752) -/

/-- JavaScript `a || b` on integer values: `b` when `a` is `0` (falsy),
otherwise `a`. -/
def jsOrZ (a b : ℤ) : ℤ := if a = 0 then b else a

/-- JavaScript `a || b` where `a` is an integer and `b` a rational
(the `ingredientSumCalories || totalCalories` mix). -/
def jsOrZQ (a : ℤ) (b : ℚ) : ℚ := if a = 0 then b else (a : ℚ)

/-- The `analysisData` object as far as `calculateTotalNutrition` reads
it: its own nutrient fields plus an optional `ingredients` array. -/
structure AnalysisData where
  fields : NutrientRecord
  ingredients : Option (List NutrientRecord)

/-- The selection `editedIngredients.length > 0 ? editedIngredients :
analysisData?.ingredients || []` (lines 652–655).  An empty array is
truthy in JS, so a present-but-empty `ingredients` is used as-is. -/
def currentIngredients (a : Option AnalysisData)
    (edited : List NutrientRecord) : List NutrientRecord :=
  if 0 < edited.length then edited
  else match a with
       | some ad => ad.ingredients.getD []
       | none => []

/-- The expression `analysisData?.calories || 0` (line 669): the raw meal-level
calories field, not resolver-based. -/
def mealLevelCalories (a : Option AnalysisData) : ℚ :=
  match a with
  | none => 0
  | some ad =>
      match ad.fields.lookup "calories" with
      | some (JVal.num q) => q
      | _ => 0

/-- The expression `analysisData ? getNutritionValue(analysisData, f1) ||
getNutritionValue(analysisData, f2) || 0 : 0` (lines 670–699). -/
def mealLevel (a : Option AnalysisData) (f1 f2 : String) : ℤ :=
  match a with
  | none => 0
  | some ad =>
      jsOrZ (jsOrZ (getNutritionValue (some ad.fields) f1)
                   (getNutritionValue (some ad.fields) f2)) 0

/-- Per-ingredient contribution for a dual-named nutrient:
`getNutritionValue(ingredient, f1) || getNutritionValue(ingredient, f2)`
(lines 712–729). -/
def ingContrib (ing : NutrientRecord) (f1 f2 : String) : ℤ :=
  jsOrZ (getNutritionValue (some ing) f1) (getNutritionValue (some ing) f2)

/-- The `ingredientSumX += ...` accumulation loop (lines 710–730),
a left fold in meal order. -/
def ingSum (l : List NutrientRecord) (f1 f2 : String) : ℤ :=
  l.foldl (fun acc ing => acc + ingContrib ing f1 f2) 0

/-- The calories accumulation (line 711), which uses the single field
name `calories`. -/
def ingSumCalories (l : List NutrientRecord) : ℤ :=
  l.foldl (fun acc ing => acc + getNutritionValue (some ing) "calories") 0

/-- The result record of `calculateTotalNutrition`. -/
structure TotalNutrition where
  calories : ℚ
  protein : ℤ
  carbs : ℤ
  fat : ℤ
  fiber : ℤ
  sugar : ℤ
  sodium : ℤ

/-- The function `calculateTotalNutrition` from `camera.tsx`
(lines 651–752). -/
def calculateTotalNutrition (a : Option AnalysisData)
    (edited : List NutrientRecord) : TotalNutrition :=
  let cur := currentIngredients a edited
  if a.isNone && (cur.length == 0) then ⟨0, 0, 0, 0, 0, 0, 0⟩
  else
    let totalCalories := mealLevelCalories a
    let totalProtein := mealLevel a "protein_g" "protein"
    let totalCarbs := mealLevel a "carbs_g" "carbs"
    let totalFat := mealLevel a "fats_g" "fat"
    let totalFiber := mealLevel a "fiber_g" "fiber"
    let totalSugar := mealLevel a "sugar_g" "sugar"
    let totalSodium := mealLevel a "sodium_mg" "sodium"
    if 0 < cur.length then
      { calories := jsOrZQ (ingSumCalories cur) totalCalories
        protein := jsOrZ (ingSum cur "protein_g" "protein") totalProtein
        carbs := jsOrZ (ingSum cur "carbs_g" "carbs") totalCarbs
        fat := jsOrZ (ingSum cur "fats_g" "fat") totalFat
        fiber := jsOrZ (ingSum cur "fiber_g" "fiber") totalFiber
        sugar := jsOrZ (ingSum cur "sugar_g" "sugar") totalSugar
        sodium := jsOrZ (ingSum cur "sodium_mg" "sodium") totalSodium }
    else
      ⟨totalCalories, totalProtein, totalCarbs, totalFat, totalFiber,
       totalSugar, totalSodium⟩

/-- A left fold of additions equals the sum of the mapped list. -/
lemma foldl_add_eq_sum {α : Type} (g : α → ℤ) :
    ∀ (l : List α) (init : ℤ),
      l.foldl (fun acc x => acc + g x) init = init + (l.map g).sum := by
  intro l
  induction l with
  | nil => intro init; simp
  | cons x xs ih =>
      intro init
      simp only [List.foldl_cons, List.map_cons, List.sum_cons, ih]
      ring

lemma ingSum_eq_sum (l : List NutrientRecord) (f1 f2 : String) :
    ingSum l f1 f2 = (l.map fun i => ingContrib i f1 f2).sum := by
  simpa using foldl_add_eq_sum (fun i => ingContrib i f1 f2) l 0

lemma ingSumCalories_eq_sum (l : List NutrientRecord) :
    ingSumCalories l
      = (l.map fun i => getNutritionValue (some i) "calories").sum := by
  simpa using foldl_add_eq_sum (fun i => getNutritionValue (some i) "calories") l 0

/-- C6: with a non-empty ingredient list, every per-nutrient total is
the sum over the ingredients of the per-ingredient resolved value, and
the meal-level value is used only when that sum is zero
(sum-then-fallback, never fallback-then-sum). -/
theorem claim_C6_sum_then_fallback (a : Option AnalysisData)
    (edited : List NutrientRecord)
    (h : currentIngredients a edited ≠ []) :
    (calculateTotalNutrition a edited).calories =
      (if ((currentIngredients a edited).map
            fun i => getNutritionValue (some i) "calories").sum ≠ 0
       then ((((currentIngredients a edited).map
            fun i => getNutritionValue (some i) "calories").sum : ℤ) : ℚ)
       else mealLevelCalories a) ∧
    (calculateTotalNutrition a edited).protein =
      (if ((currentIngredients a edited).map
            fun i => ingContrib i "protein_g" "protein").sum ≠ 0
       then ((currentIngredients a edited).map
            fun i => ingContrib i "protein_g" "protein").sum
       else mealLevel a "protein_g" "protein") ∧
    (calculateTotalNutrition a edited).carbs =
      (if ((currentIngredients a edited).map
            fun i => ingContrib i "carbs_g" "carbs").sum ≠ 0
       then ((currentIngredients a edited).map
            fun i => ingContrib i "carbs_g" "carbs").sum
       else mealLevel a "carbs_g" "carbs") ∧
    (calculateTotalNutrition a edited).fat =
      (if ((currentIngredients a edited).map
            fun i => ingContrib i "fats_g" "fat").sum ≠ 0
       then ((currentIngredients a edited).map
            fun i => ingContrib i "fats_g" "fat").sum
       else mealLevel a "fats_g" "fat") ∧
    (calculateTotalNutrition a edited).fiber =
      (if ((currentIngredients a edited).map
            fun i => ingContrib i "fiber_g" "fiber").sum ≠ 0
       then ((currentIngredients a edited).map
            fun i => ingContrib i "fiber_g" "fiber").sum
       else mealLevel a "fiber_g" "fiber") ∧
    (calculateTotalNutrition a edited).sugar =
      (if ((currentIngredients a edited).map
            fun i => ingContrib i "sugar_g" "sugar").sum ≠ 0
       then ((currentIngredients a edited).map
            fun i => ingContrib i "sugar_g" "sugar").sum
       else mealLevel a "sugar_g" "sugar") ∧
    (calculateTotalNutrition a edited).sodium =
      (if ((currentIngredients a edited).map
            fun i => ingContrib i "sodium_mg" "sodium").sum ≠ 0
       then ((currentIngredients a edited).map
            fun i => ingContrib i "sodium_mg" "sodium").sum
       else mealLevel a "sodium_mg" "sodium") := by
  have hlen : 0 < (currentIngredients a edited).length :=
    List.length_pos.mpr h
  have hlen0 : ¬((currentIngredients a edited).length == 0) = true := by
    simp [List.length_eq_zero, h]
  simp only [calculateTotalNutrition, Bool.and_eq_true, hlen0, and_false,
    if_neg, Bool.false_eq_true, false_and, if_pos hlen, Bool.and_false]
  refine ⟨?_, ?_, ?_, ?_, ?_, ?_, ?_⟩ <;>
    simp only [jsOrZ, jsOrZQ, ingSum_eq_sum, ingSumCalories_eq_sum] <;>
    split <;> simp_all

/-- Witness for C6: a meal whose record holds `protein_g = 0` and whose
ingredients are `[{name:"rice", protein_g:4}, {name:"egg", protein:6}]`
yields total protein `4 + 6 = 10`. -/
theorem claim_C6_sum_then_fallback_witness :
    (calculateTotalNutrition
      (some { fields := [("protein_g", JVal.num 0)],
              ingredients := some
                [[("name", JVal.str none), ("protein_g", JVal.num 4)],
                 [("name", JVal.str none), ("protein", JVal.num 6)]] })
      []).protein = 10 := by
  have h := (claim_C6_sum_then_fallback
    (some { fields := [("protein_g", JVal.num 0)],
            ingredients := some
              [[("name", JVal.str none), ("protein_g", JVal.num 4)],
               [("name", JVal.str none), ("protein", JVal.num 6)]] })
    [] (by simp [currentIngredients])).2.1
  rw [h]
  have h4 : getNutritionValue
      (some [("name", JVal.str none), ("protein_g", JVal.num 4)])
      "protein_g" = 4 := by
    simp [getNutritionValue, variations, resolveList, tryVariation,
      List.lookup, jsReplace_protein_g_g, jsReplace_protein_g_mg,
      jsReplace_protein_g_gl, jsReplace_protein_g_mgl]
    norm_num [jround]
  have h6a : getNutritionValue
      (some [("name", JVal.str none), ("protein", JVal.num 6)])
      "protein_g" = 6 := by
    simp [getNutritionValue, variations, resolveList, tryVariation,
      List.lookup, jsReplace_protein_g_g, jsReplace_protein_g_mg,
      jsReplace_protein_g_gl, jsReplace_protein_g_mgl]
    norm_num [jround]
  simp [currentIngredients, ingContrib, jsOrZ, h4, h6a]

/-! ## Server-side data model (`src/server/src/services/nutrition.ts`) -/

/-- A JSON value as stored in the `additives_json` column. -/
inductive AVal where
  | bool (b : Bool)
  | num (q : ℚ)
  | str (s : String)
  | obj (fields : List (String × AVal))
  | null

/-- A JSON object: an association list of fields. -/
abbrev JObj := List (String × AVal)

/-- A stored meal row as the statistics and mutation paths read it.
`created_at` is in milliseconds since the Unix epoch (UTC); `nutr` maps
each numeric column name to its stored value, `none` modelling SQL
`NULL`; `additives` is the `additives_json` column. -/
structure StoredMeal where
  meal_id : Nat
  user_id : String
  created_at : Nat
  nutr : List (String × Option ℚ)
  additives : AVal

/-- The read `(meal[field] as number) || 0` (line 664): the raw stored value,
with `NULL` and a missing column coerced to `0`. -/
def rawVal (m : StoredMeal) (f : String) : ℚ :=
  match m.nutr.lookup f with
  | some (some q) => q
  | _ => 0

/-- Milliseconds per day. -/
def msPerDay : Nat := 86400000

/-- The key `meal.created_at.toISOString().split("T")[0]` (lines 669, 682): the
UTC calendar day of the creation timestamp. -/
def dayOf (m : StoredMeal) : Nat := m.created_at / msPerDay

/-- The tracked numeric fields of `getRangeStatistics`
(lines 634–657). -/
def numericFields : List String :=
  ["calories", "protein_g", "carbs_g", "fats_g", "saturated_fats_g",
   "polyunsaturated_fats_g", "monounsaturated_fats_g", "omega_3_g",
   "omega_6_g", "fiber_g", "soluble_fiber_g", "insoluble_fiber_g",
   "sugar_g", "cholesterol_mg", "sodium_mg", "alcohol_g", "caffeine_mg",
   "liquids_ml", "serving_size_g", "glycemic_index", "insulin_index",
   "confidence"]

/-- The rounding `Math.round(val * 100) / 100` (lines 731, 735): round to two decimal
places, applied once to each final total and average. -/
def round2 (q : ℚ) : ℚ := (jround (q * 100) : ℚ) / 100

/-- The inner loop of the totals accumulation (lines 662–666): add one
meal's raw values to every tracked field's running total. -/
def addMealTotals (acc : List (String × ℚ)) (m : StoredMeal) :
    List (String × ℚ) :=
  acc.map fun fv => (fv.1, fv.2 + rawVal m fv.1)

/-- The totals accumulation (lines 659–666): start every tracked field
at `0` and fold the meals in order. -/
def totalsList (meals : List StoredMeal) : List (String × ℚ) :=
  meals.foldl addMealTotals (numericFields.map fun f => (f, 0))

/-- The set `new Set(meals.map(m => day(m)))` (lines 668–671): the distinct UTC
days on which meals occur. -/
def distinctDays (meals : List StoredMeal) : List Nat :=
  (meals.map dayOf).dedup

/-- Ascending insertion used to model the `sort` of the daily breakdown
keys (the date strings `YYYY-MM-DD` compare lexicographically exactly as
the day numbers compare). -/
def insertAsc (d : Nat) : List Nat → List Nat
  | [] => [d]
  | x :: xs => if d < x then d :: x :: xs else x :: insertAsc d xs

/-- Sort a list of day keys ascending (lines 738–740). -/
def sortAsc (l : List Nat) : List Nat := l.foldr insertAsc []

/-- The daily grouping (lines 681–723) followed by the sort by date
(lines 738–740): one bucket per distinct day, holding the meals of that
day in input order. -/
def mkDailyBreakdown (meals : List StoredMeal) :
    List (Nat × List StoredMeal) :=
  (sortAsc (distinctDays meals)).map fun d =>
    (d, meals.filter fun m => dayOf m == d)

/-- The statistics object returned by `getRangeStatistics`
(lines 725–745), with the `total_`/`average_` prefixes of the JS keys
split into two association lists. -/
structure RangeStatistics where
  totalDays : Nat
  totalMeals : Nat
  totals : List (String × ℚ)
  averages : List (String × ℚ)
  dailyBreakdown : List (Nat × List StoredMeal)

/-- The aggregation core of `getRangeStatistics` (lines 587–745) applied
to the meals returned by the store query: the empty-range branch
(lines 587–630) and the totals/averages/breakdown computation.  Averages
are computed from the un-rounded totals (lines 673–678) and every total
and average is rounded to two decimals once, at the end (lines
728–737). -/
def computeRangeStatistics (meals : List StoredMeal) : RangeStatistics :=
  if meals.isEmpty then
    { totalDays := 0
      totalMeals := 0
      totals := numericFields.map fun f => (f, 0)
      averages := numericFields.map fun f => (f, 0)
      dailyBreakdown := [] }
  else
    let totals := totalsList meals
    let totalDays := (distinctDays meals).length
    { totalDays := totalDays
      totalMeals := meals.length
      totals := totals.map fun fv => (fv.1, round2 fv.2)
      averages := totals.map fun fv =>
        (fv.1, round2 (if 0 < totalDays then fv.2 / (totalDays : ℚ) else 0))
      dailyBreakdown := mkDailyBreakdown meals }

/-- The store query of `getRangeStatistics` (lines 541–585):
`created_at` between `startDate + "T00:00:00.000Z"` and
`endDate + "T23:59:59.999Z"` inclusive, for the requesting user, ordered
by `created_at` ascending.  `s` and `e` are the day numbers of
`startDate` and `endDate`. -/
def inRange (s e : Nat) (m : StoredMeal) : Bool :=
  s * msPerDay ≤ m.created_at && m.created_at ≤ e * msPerDay + 86399999

/-- Stable insertion by creation timestamp (models `orderBy created_at
asc`). -/
def insertByCreated (m : StoredMeal) : List StoredMeal → List StoredMeal
  | [] => [m]
  | x :: xs =>
      if m.created_at < x.created_at then m :: x :: xs
      else x :: insertByCreated m xs

/-- Sort meals by creation timestamp ascending. -/
def sortByCreated (l : List StoredMeal) : List StoredMeal :=
  l.foldr insertByCreated []

/-- The meals the range query returns. -/
def findMealsInRange (store : List StoredMeal) (u : String) (s e : Nat) :
    List StoredMeal :=
  sortByCreated (store.filter fun m => m.user_id == u && inRange s e m)

/-- The whole of `getRangeStatistics` on a cache miss: query then
aggregate. -/
def getRangeStatisticsPure (store : List StoredMeal) (u : String)
    (s e : Nat) : RangeStatistics :=
  computeRangeStatistics (findMealsInRange store u s e)

/-- The totals fold computes, for every tracked field, the starting
value plus the sum of that field's raw values over the meals. -/
lemma foldl_addMealTotals (l : List String) :
    ∀ (meals : List StoredMeal) (c : String → ℚ),
      meals.foldl addMealTotals (l.map fun f => (f, c f))
        = l.map fun f => (f, c f + (meals.map fun m => rawVal m f).sum) := by
  intro meals
  induction meals with
  | nil => intro c; simp
  | cons m ms ih =>
      intro c
      have hstep : addMealTotals (l.map fun f => (f, c f)) m
          = l.map fun f => (f, c f + rawVal m f) := by
        simp [addMealTotals, List.map_map, Function.comp]
      rw [List.foldl_cons, hstep, ih]
      simp only [List.map_cons, List.sum_cons, add_assoc]

lemma totalsList_eq (meals : List StoredMeal) :
    totalsList meals
      = numericFields.map fun f => (f, (meals.map fun m => rawVal m f).sum) := by
  have h := foldl_addMealTotals numericFields meals (fun _ => 0)
  simpa [totalsList] using h

/-- Looking up a key in an association list built by mapping over a key
list that contains it yields the mapped value of the first occurrence. -/
lemma lookup_map_self {β : Type} (g : String → β) (f : String) :
    ∀ l : List String, f ∈ l →
      (l.map fun x => (x, g x)).lookup f = some (g f) := by
  intro l
  induction l with
  | nil => intro h; cases h
  | cons x xs ih =>
      intro hf
      by_cases hx : f = x
      · subst hx; simp [List.lookup]
      · have hmem : f ∈ xs := by
          rcases List.mem_cons.mp hf with h | h
          · exact absurd h hx
          · exact h
        have hbx : (f == x) = false := by simp [hx]
        simp [List.lookup, hbx, ih hmem]

/-- The reported total for every tracked field is the raw sum over the
meals, rounded to two decimals at the end (both branches of
`getRangeStatistics`). -/
lemma totals_lookup (meals : List StoredMeal) (f : String)
    (hf : f ∈ numericFields) :
    (computeRangeStatistics meals).totals.lookup f
      = some (round2 (meals.map fun m => rawVal m f).sum) := by
  cases meals with
  | nil =>
      have h0 := lookup_map_self (fun _ => (0 : ℚ)) f numericFields hf
      simp only [computeRangeStatistics, List.isEmpty_nil, if_pos]
      rw [h0]
      norm_num [round2, jround]
  | cons m ms =>
      simp only [computeRangeStatistics, List.isEmpty_cons, Bool.false_eq_true,
        if_false, totalsList_eq, List.map_map]
      have h := lookup_map_self
        (fun f => round2 ((m :: ms).map fun x => rawVal x f).sum) f
        numericFields hf
      simpa [Function.comp] using h

/-- The reported average for every tracked field divides the un-rounded
raw total by the distinct-day count and rounds the quotient once. -/
lemma averages_lookup (meals : List StoredMeal) (f : String)
    (hf : f ∈ numericFields) (hne : meals ≠ []) :
    (computeRangeStatistics meals).averages.lookup f
      = some (round2 (if 0 < (distinctDays meals).length
          then (meals.map fun m => rawVal m f).sum
            / ((distinctDays meals).length : ℚ)
          else 0)) := by
  cases meals with
  | nil => exact absurd rfl hne
  | cons m ms =>
      simp only [computeRangeStatistics, List.isEmpty_cons, Bool.false_eq_true,
        if_false, totalsList_eq, List.map_map]
      have h := lookup_map_self
        (fun f => round2 (if 0 < (distinctDays (m :: ms)).length
          then ((m :: ms).map fun x => rawVal x f).sum
            / ((distinctDays (m :: ms)).length : ℚ)
          else 0)) f numericFields hf
      simpa [Function.comp] using h

/-- A non-empty meal list occupies at least one distinct day. -/
lemma distinctDays_pos (meals : List StoredMeal) (hne : meals ≠ []) :
    0 < (distinctDays meals).length := by
  cases meals with
  | nil => exact absurd rfl hne
  | cons m ms =>
      apply List.length_pos.mpr
      intro hnil
      have : dayOf m ∈ distinctDays (m :: ms) := by
        simp [distinctDays, List.mem_dedup]
      rw [hnil] at this
      cases this

/-- A stored meal row viewed as a loosely-typed nutrient record, as the
client resolver would receive it (`NULL` columns are non-numeric
values to the resolver). -/
def mealRecordOf (m : StoredMeal) : NutrientRecord :=
  m.nutr.map fun fv =>
    (fv.1, match fv.2 with
           | some q => JVal.num q
           | none => JVal.other)

/-- C2 counterexample: a single in-range meal stores `protein_g = 2.5`.
The resolver, which rounds each contribution to the nearest integer,
would contribute `3`; the reported `total_protein_g` is `2.5`:
`getRangeStatistics` sums the raw stored field values and never applies
the resolver. -/
theorem claim_C2_counterexample :
    (computeRangeStatistics
      [{ meal_id := 1, user_id := "u1", created_at := 0,
         nutr := [("protein_g", some (5/2))], additives := AVal.null }]
      ).totals.lookup "protein_g" = some (5/2) ∧
    getNutritionValue
      (some (mealRecordOf
        { meal_id := 1, user_id := "u1", created_at := 0,
          nutr := [("protein_g", some (5/2))], additives := AVal.null }))
      "protein_g" = 3 ∧
    ((5 : ℚ)/2) ≠ ((3 : ℤ) : ℚ) := by
  refine ⟨?_, ?_, by norm_num⟩
  · rw [totals_lookup _ _ (by decide)]
    norm_num [rawVal, List.lookup, round2, jround]
  · simp only [mealRecordOf, List.map_cons, List.map_nil]
    simp [getNutritionValue, variations, resolveList, tryVariation,
      List.lookup, jsReplace_protein_g_g, jsReplace_protein_g_mg,
      jsReplace_protein_g_gl, jsReplace_protein_g_mgl]
    norm_num [jround]

/-- C2 (amended): for every tracked numeric field, the reported
`total_f` of `getRangeStatistics` is the sum of the *raw stored* field
values over the meals in range (`NULL` coerced to `0`), rounded to two
decimals at the end; the nutrient field resolver is not applied on this
path. -/
theorem claim_C2_totals_are_raw_sums (meals : List StoredMeal)
    (f : String) (hf : f ∈ numericFields) :
    (computeRangeStatistics meals).totals.lookup f
      = some (round2 (meals.map fun m => rawVal m f).sum) :=
  totals_lookup meals f hf

/-- Witness for C2 (amended): two meals with `protein_g = 2.5` and
`protein_g = 4` report `total_protein_g = 6.5`. -/
theorem claim_C2_totals_are_raw_sums_witness :
    (computeRangeStatistics
      [{ meal_id := 1, user_id := "u1", created_at := 0,
         nutr := [("protein_g", some (5/2))], additives := AVal.null },
       { meal_id := 2, user_id := "u1", created_at := 1000,
         nutr := [("protein_g", some 4)], additives := AVal.null }]
      ).totals.lookup "protein_g" = some (13/2) := by
  rw [claim_C2_totals_are_raw_sums _ _ (by decide)]
  norm_num [rawVal, List.lookup, round2, jround]

/-- C4: over a non-empty meal set, the reported `average_f` is the
un-rounded raw total divided by the number of distinct UTC days (never
by the meal count), rounded to two decimals once at the end; the
reported `total_f` is the raw total rounded once at the end; and the
reported `totalDays` is the distinct-day count. -/
theorem claim_C4_average_by_distinct_days (meals : List StoredMeal)
    (f : String) (hne : meals ≠ []) (hf : f ∈ numericFields) :
    (computeRangeStatistics meals).averages.lookup f
      = some (round2 ((meals.map fun m => rawVal m f).sum
          / ((distinctDays meals).length : ℚ))) ∧
    (computeRangeStatistics meals).totals.lookup f
      = some (round2 (meals.map fun m => rawVal m f).sum) ∧
    (computeRangeStatistics meals).totalDays
      = (distinctDays meals).length := by
  refine ⟨?_, totals_lookup meals f hf, ?_⟩
  · rw [averages_lookup meals f hf hne,
      if_pos (distinctDays_pos meals hne)]
  · cases meals with
    | nil => exact absurd rfl hne
    | cons m ms =>
        simp [computeRangeStatistics]

/-- Witness for C4: three meals, two on day 0 and one on day 1, with
`protein_g` values 4, 5, 6: `average_protein_g = 15/2 = 7.5` (divide by
2 distinct days, not by 3 meals, which would give 5). -/
theorem claim_C4_average_by_distinct_days_witness :
    (computeRangeStatistics
      [{ meal_id := 1, user_id := "u1", created_at := 0,
         nutr := [("protein_g", some 4)], additives := AVal.null },
       { meal_id := 2, user_id := "u1", created_at := 1000,
         nutr := [("protein_g", some 5)], additives := AVal.null },
       { meal_id := 3, user_id := "u1", created_at := 86400000,
         nutr := [("protein_g", some 6)], additives := AVal.null }]
      ).averages.lookup "protein_g" = some (15/2) ∧
    (distinctDays
      [{ meal_id := 1, user_id := "u1", created_at := 0,
         nutr := [("protein_g", some 4)], additives := AVal.null },
       { meal_id := 2, user_id := "u1", created_at := 1000,
         nutr := [("protein_g", some 5)], additives := AVal.null },
       { meal_id := 3, user_id := "u1", created_at := 86400000,
         nutr := [("protein_g", some 6)], additives := AVal.null }]).length
      = 2 := by
  constructor
  · rw [(claim_C4_average_by_distinct_days _ "protein_g"
      (by simp) (by decide)).1]
    norm_num [rawVal, List.lookup, distinctDays, dayOf, msPerDay,
      List.dedup_cons_of_mem, List.dedup_cons_of_not_mem, round2, jround]
  · norm_num [distinctDays, dayOf, msPerDay, List.dedup_cons_of_mem,
      List.dedup_cons_of_not_mem]

lemma insertAsc_perm (d : Nat) (l : List Nat) :
    (insertAsc d l).Perm (d :: l) := by
  induction l with
  | nil => exact List.Perm.refl _
  | cons x xs ih =>
      by_cases h : d < x
      · simp [insertAsc, h]
      · simp only [insertAsc, if_neg h]
        exact (ih.cons x).trans (List.Perm.swap d x xs)

lemma sortAsc_perm (l : List Nat) : (sortAsc l).Perm l := by
  induction l with
  | nil => exact List.Perm.refl _
  | cons x xs ih =>
      simp only [sortAsc, List.foldr_cons]
      exact (insertAsc_perm x _).trans (ih.cons x)

lemma insertByCreated_perm (m : StoredMeal) (l : List StoredMeal) :
    (insertByCreated m l).Perm (m :: l) := by
  induction l with
  | nil => exact List.Perm.refl _
  | cons x xs ih =>
      by_cases h : m.created_at < x.created_at
      · simp [insertByCreated, h]
      · simp only [insertByCreated, if_neg h]
        exact (ih.cons x).trans (List.Perm.swap m x xs)

lemma sortByCreated_perm (l : List StoredMeal) :
    (sortByCreated l).Perm l := by
  induction l with
  | nil => exact List.Perm.refl _
  | cons x xs ih =>
      simp only [sortByCreated, List.foldr_cons]
      exact (insertByCreated_perm x _).trans (ih.cons x)

lemma map_congr_mem {α β : Type} (f g : α → β) :
    ∀ l : List α, (∀ a ∈ l, f a = g a) → l.map f = l.map g := by
  intro l
  induction l with
  | nil => intro _; rfl
  | cons x xs ih =>
      intro h
      simp only [List.map_cons, h x (by simp),
        ih fun a ha => h a (by simp [ha])]

/-- Filtering by a day different from `d` ignores a prior filter that
removed day `d`. -/
lemma filter_day_of_filter_ne (d d' : Nat) (hne : d' ≠ d) :
    ∀ l : List StoredMeal,
      ((l.filter fun m => !(dayOf m == d)).filter fun m => dayOf m == d')
        = l.filter fun m => dayOf m == d' := by
  intro l
  induction l with
  | nil => rfl
  | cons m ms ih =>
      by_cases h1 : dayOf m = d
      · simp [List.filter_cons, h1, Ne.symm hne, ih]
      · simp [List.filter_cons, h1, ih]

/-- Partition: if `ds` lists each occurring day exactly once, the
concatenation of the per-day filters is a permutation of the input. -/
lemma join_filter_perm :
    ∀ (ds : List Nat) (l : List StoredMeal), ds.Nodup →
      (∀ m ∈ l, dayOf m ∈ ds) →
      ((ds.map fun d => l.filter fun m => dayOf m == d).flatten).Perm l := by
  intro ds
  induction ds with
  | nil =>
      intro l _ hcov
      have hl : l = [] := by
        cases l with
        | nil => rfl
        | cons m ms => exact absurd (hcov m (by simp)) (by simp)
      subst hl
      exact List.Perm.refl _
  | cons d ds ih =>
      intro l hnd hcov
      have hdd : d ∉ ds := (List.nodup_cons.mp hnd).1
      have hnd' : ds.Nodup := (List.nodup_cons.mp hnd).2
      have hrest : (ds.map fun d' => l.filter fun m => dayOf m == d')
          = ds.map fun d' =>
              (l.filter fun m => !(dayOf m == d)).filter
                fun m => dayOf m == d' := by
        apply map_congr_mem
        intro d' hd'
        have : d' ≠ d := fun hc => hdd (hc ▸ hd')
        exact (filter_day_of_filter_ne d d' this l).symm
      have hcov' : ∀ m ∈ l.filter fun m => !(dayOf m == d), dayOf m ∈ ds := by
        intro m hm
        have hml := List.mem_filter.mp hm
        have hday : dayOf m ≠ d := by
          have := hml.2
          simpa using this
        rcases List.mem_cons.mp (hcov m hml.1) with h | h
        · exact absurd h hday
        · exact h
      have hih := ih (l.filter fun m => !(dayOf m == d)) hnd' hcov'
      simp only [List.map_cons, List.flatten_cons]
      rw [hrest]
      exact (List.Perm.append_left _ hih).trans (List.filter_append_perm _ l)

/-- Both branches of `getRangeStatistics` produce the grouped-and-sorted
daily breakdown (the empty branch's `[]` coincides with grouping no
meals). -/
lemma breakdown_eq (meals : List StoredMeal) :
    (computeRangeStatistics meals).dailyBreakdown = mkDailyBreakdown meals := by
  cases meals with
  | nil => rfl
  | cons m ms => rfl

lemma sortAsc_distinctDays_nodup (meals : List StoredMeal) :
    (sortAsc (distinctDays meals)).Nodup :=
  ((sortAsc_perm (distinctDays meals)).nodup_iff).mpr (List.nodup_dedup _)

lemma mem_sortAsc_distinctDays (meals : List StoredMeal) (m : StoredMeal)
    (hm : m ∈ meals) : dayOf m ∈ sortAsc (distinctDays meals) :=
  (sortAsc_perm (distinctDays meals)).mem_iff.mpr
    (List.mem_dedup.mpr (List.mem_map_of_mem dayOf hm))

/-- C7 (amended): the daily breakdown of `getRangeStatistics` partitions
exactly the meals whose creation timestamp lies in
`[startDate 00:00:00.000Z, endDate 23:59:59.999Z]` inclusive for the
requesting user, grouped by UTC calendar day of `created_at`; and for
every tracked field the reported range total equals the sum of that
field over all meals of all breakdown entries *rounded to two decimal
places* (the final rounding step of the aggregation, which is the only
deviation from the claim's plain equality). -/
theorem claim_C7_daily_breakdown_partition (store : List StoredMeal)
    (u : String) (s e : Nat) (f : String) (hf : f ∈ numericFields) :
    ((((getRangeStatisticsPure store u s e).dailyBreakdown.map
        Prod.snd).flatten).Perm
      (store.filter fun m => m.user_id == u && inRange s e m)) ∧
    (∀ p ∈ (getRangeStatisticsPure store u s e).dailyBreakdown,
      ∀ m ∈ p.2, dayOf m = p.1) ∧
    ((getRangeStatisticsPure store u s e).totals.lookup f
      = some (round2
          (((((getRangeStatisticsPure store u s e).dailyBreakdown.map
            Prod.snd).flatten).map fun m => rawVal m f).sum))) := by
  have hjoined : (((getRangeStatisticsPure store u s e).dailyBreakdown.map
      Prod.snd).flatten)
      = ((sortAsc (distinctDays (findMealsInRange store u s e))).map
          fun d => (findMealsInRange store u s e).filter
            fun m => dayOf m == d).flatten := by
    simp only [getRangeStatisticsPure, breakdown_eq, mkDailyBreakdown,
      List.map_map]
    rfl
  have hperm1 : (((sortAsc (distinctDays (findMealsInRange store u s e))).map
      fun d => (findMealsInRange store u s e).filter
        fun m => dayOf m == d).flatten).Perm (findMealsInRange store u s e) :=
    join_filter_perm _ _ (sortAsc_distinctDays_nodup _)
      (fun m hm => mem_sortAsc_distinctDays _ m hm)
  have hperm2 : (findMealsInRange store u s e).Perm
      (store.filter fun m => m.user_id == u && inRange s e m) :=
    sortByCreated_perm _
  refine ⟨?_, ?_, ?_⟩
  · rw [hjoined]
    exact hperm1.trans hperm2
  · intro p hp m hm
    have hp' : p ∈ mkDailyBreakdown (findMealsInRange store u s e) := by
      simpa [getRangeStatisticsPure, breakdown_eq] using hp
    simp only [mkDailyBreakdown] at hp'
    obtain ⟨d, _, rfl⟩ := List.mem_map.mp hp'
    have := (List.mem_filter.mp hm).2
    simpa using this
  · have htot := totals_lookup (findMealsInRange store u s e) f hf
    have hsum : ((((getRangeStatisticsPure store u s e).dailyBreakdown.map
        Prod.snd).flatten).map fun m => rawVal m f).sum
        = ((findMealsInRange store u s e).map fun m => rawVal m f).sum := by
      rw [hjoined]
      exact ((hperm1.map fun m => rawVal m f)).sum_eq
    rw [hsum]
    exact htot

/-- C7 counterexample: one in-range meal stores `calories = 0.001`.  The
sum of `calories` over the breakdown meals is `0.001`, but the reported
`total_calories` is `0` (the total is rounded to two decimals at the end
of aggregation), so the claim's plain equality between the breakdown sum
and the reported total fails. -/
theorem claim_C7_counterexample :
    ((((getRangeStatisticsPure
        [{ meal_id := 1, user_id := "u1", created_at := 0,
           nutr := [("calories", some (1/1000))], additives := AVal.null }]
        "u1" 0 0).dailyBreakdown.map Prod.snd).flatten).map
      fun m => rawVal m "calories").sum = 1/1000 ∧
    (getRangeStatisticsPure
        [{ meal_id := 1, user_id := "u1", created_at := 0,
           nutr := [("calories", some (1/1000))], additives := AVal.null }]
        "u1" 0 0).totals.lookup "calories" = some 0 ∧
    ((1 : ℚ)/1000) ≠ 0 := by
  have hms : findMealsInRange
      [{ meal_id := 1, user_id := "u1", created_at := 0,
         nutr := [("calories", some (1/1000))], additives := AVal.null }]
      "u1" 0 0
      = [{ meal_id := 1, user_id := "u1", created_at := 0,
           nutr := [("calories", some (1/1000))], additives := AVal.null }] := by
    simp [findMealsInRange, inRange, msPerDay, sortByCreated, insertByCreated,
      List.filter_cons]
  refine ⟨?_, ?_, by norm_num⟩
  · simp only [getRangeStatisticsPure, hms, breakdown_eq, mkDailyBreakdown]
    norm_num [distinctDays, dayOf, msPerDay, sortAsc, insertAsc, rawVal,
      List.lookup, List.dedup_cons_of_not_mem, List.filter_cons]
  · simp only [getRangeStatisticsPure, hms]
    rw [totals_lookup _ _ (by decide)]
    norm_num [rawVal, List.lookup, round2, jround]

/-- Witness for C7 (amended): a two-owner, two-day store; the breakdown
for owner `u1` over days 0–1 is a permutation of exactly `u1`'s in-range
meals. -/
theorem claim_C7_daily_breakdown_partition_witness :
    ((((getRangeStatisticsPure
        [{ meal_id := 1, user_id := "u1", created_at := 0,
           nutr := [], additives := AVal.null },
         { meal_id := 2, user_id := "u2", created_at := 1000,
           nutr := [], additives := AVal.null },
         { meal_id := 3, user_id := "u1", created_at := 86400000,
           nutr := [], additives := AVal.null }]
        "u1" 0 1).dailyBreakdown.map Prod.snd).flatten).Perm
      ([{ meal_id := 1, user_id := "u1", created_at := 0,
          nutr := [], additives := AVal.null },
        { meal_id := 2, user_id := "u2", created_at := 1000,
          nutr := [], additives := AVal.null },
        { meal_id := 3, user_id := "u1", created_at := 86400000,
          nutr := [], additives := AVal.null }].filter
        fun m => m.user_id == "u1" && inRange 0 1 m)) :=
  (claim_C7_daily_breakdown_partition _ "u1" 0 1 "calories" (by decide)).1

/-! ## Caches and the mutation paths of `NutritionService` -/

/-- Substring search `s.includes(pat)` on character lists. -/
def hasSubstrChars (pat : List Char) : List Char → Bool
  | [] => pat.isEmpty
  | c :: rest => pat.isPrefixOf (c :: rest) || hasSubstrChars pat rest

/-- JavaScript `key.includes(user_id)`: substring containment
(lines 929, 945). -/
def strIncludes (s pat : String) : Bool := hasSubstrChars pat.data s.data

/-- A cache entry `{ data, timestamp }`, the payload abstracted to an
opaque tag. -/
structure CacheEntry where
  data : Nat
  timestamp : Nat
deriving DecidableEq

/-- The meals-cache key shape of `getUserMeals` (line 410):
`user_meals_${user_id}_${offset}_${limit}`. -/
def mealsCacheKey (u : String) (offset limit : Nat) : String :=
  "user_meals_" ++ u ++ "_" ++ toString offset ++ "_" ++ toString limit

/-- The statistics-cache key shape of `getRangeStatistics` (line 533):
`stats_${userId}_${startDate}_${endDate}`. -/
def statsCacheKey (u startDate endDate : String) : String :=
  "stats_" ++ u ++ "_" ++ startDate ++ "_" ++ endDate

/-- The methods `clearUserCaches` / `clearUserMealsCaches`
(lines 925–954): collect
every key containing `user_id` as a substring, then delete the collected
keys.  The two private methods run the identical logic against the two
maps; the map is passed explicitly here. -/
def clearUserCaches (cache : List (String × CacheEntry)) (user_id : String) :
    List (String × CacheEntry) :=
  let keysToDelete := (cache.map Prod.fst).filter fun k => strIncludes k user_id
  keysToDelete.foldl (fun c k => c.filter fun kv => kv.1 != k) cache

/-- Deleting each key of a collected list removes exactly the entries
whose key is in the list. -/
lemma mem_foldl_erase (kv : String × CacheEntry) :
    ∀ (ks : List String) (c : List (String × CacheEntry)),
      (kv ∈ ks.foldl (fun c k => c.filter fun kv => kv.1 != k) c
        ↔ kv ∈ c ∧ kv.1 ∉ ks) := by
  intro ks
  induction ks with
  | nil => intro c; simp
  | cons k ks ih =>
      intro c
      rw [List.foldl_cons, ih]
      simp only [List.mem_filter, List.mem_cons, bne_iff_ne, ne_eq]
      constructor
      · rintro ⟨⟨h1, h2⟩, h3⟩
        exact ⟨h1, by simp [h2, h3]⟩
      · rintro ⟨h1, h2⟩
        simp only [not_or] at h2
        exact ⟨⟨h1, h2.1⟩, h2.2⟩

/-- Membership after `clearUserCaches`: an entry survives iff it was
present and its key does not contain the owner id. -/
lemma mem_clearUserCaches (cache : List (String × CacheEntry)) (u : String)
    (kv : String × CacheEntry) :
    kv ∈ clearUserCaches cache u
      ↔ kv ∈ cache ∧ strIncludes kv.1 u = false := by
  unfold clearUserCaches
  rw [mem_foldl_erase]
  constructor
  · rintro ⟨h1, h2⟩
    refine ⟨h1, ?_⟩
    by_contra hc
    have hinc : strIncludes kv.1 u = true := by
      cases h : strIncludes kv.1 u
      · exact absurd h hc
      · rfl
    exact h2 (List.mem_filter.mpr ⟨List.mem_map_of_mem Prod.fst h1, hinc⟩)
  · rintro ⟨h1, h2⟩
    refine ⟨h1, fun hc => ?_⟩
    have := (List.mem_filter.mp hc).2
    rw [h2] at this
    cases this

/-- C8 (amended): `invalidateByOwner` removes every entry whose key
contains the owner id as a substring — including entries of *other*
owners whose key happens to contain it — and leaves untouched exactly
the entries whose key does not contain it. -/
theorem claim_C8_invalidate_by_owner
    (cache : List (String × CacheEntry)) (u : String) :
    (∀ kv ∈ cache, strIncludes kv.1 u = true →
      kv ∉ clearUserCaches cache u) ∧
    (∀ kv ∈ cache, strIncludes kv.1 u = false →
      kv ∈ clearUserCaches cache u) ∧
    (∀ kv ∈ clearUserCaches cache u, kv ∈ cache) := by
  refine ⟨fun kv hm hinc hc => ?_, fun kv hm hninc => ?_, fun kv hc => ?_⟩
  · have := (mem_clearUserCaches cache u kv).mp hc
    rw [hinc] at this
    cases this.2
  · exact (mem_clearUserCaches cache u kv).mpr ⟨hm, hninc⟩
  · exact ((mem_clearUserCaches cache u kv).mp hc).1

/-- Witness for C8 (amended): with entries for owners `alice` and `bob`,
invalidating `alice` leaves `bob`'s entry present. -/
theorem claim_C8_invalidate_by_owner_witness :
    (mealsCacheKey "bob" 0 100, CacheEntry.mk 0 0) ∈
      clearUserCaches
        [(mealsCacheKey "alice" 0 100, CacheEntry.mk 0 0),
         (mealsCacheKey "bob" 0 100, CacheEntry.mk 0 0)]
        "alice" :=
  (claim_C8_invalidate_by_owner
    [(mealsCacheKey "alice" 0 100, CacheEntry.mk 0 0),
     (mealsCacheKey "bob" 0 100, CacheEntry.mk 0 0)] "alice").2.1
    (mealsCacheKey "bob" 0 100, CacheEntry.mk 0 0) (by decide) (by decide)

/-- C8 counterexample: owner ids `"1"` and `"11"`.  The key of owner
`"11"`'s meals-cache entry contains `"1"` as a substring, so
invalidating owner `"1"` also deletes owner `"11"`'s entry: the claim's
"leaves every key belonging to other owners untouched" fails. -/
theorem claim_C8_counterexample :
    clearUserCaches
      [(mealsCacheKey "1" 0 100, CacheEntry.mk 0 0),
       (mealsCacheKey "11" 0 100, CacheEntry.mk 0 0)]
      "1" = [] ∧
    mealsCacheKey "11" 0 100 ≠ mealsCacheKey "1" 0 100 := by
  constructor
  · decide
  · decide

/-- JavaScript `Boolean(x)` on an optional JSON value: `undefined`,
`null`, `false`, `0` and `""` are falsy; everything else — including
non-boolean truthy values such as `1` or `"yes"` — is truthy. -/
def jsTruthy : Option AVal → Bool
  | none => false
  | some (AVal.bool b) => b
  | some (AVal.num q) => if q = 0 then false else true
  | some (AVal.str s) => if s = "" then false else true
  | some (AVal.obj _) => true
  | some AVal.null => false

/-- Modelled from the spec: `asJsonObject` is imported from
`src/server/src/utils/nutrition.ts`, which is not among the provided
sources.  Per the spec, additives fields are "read out of the opaque
additives attachment with defaulted falsy values when absent" (§4.2) and
"malformed stored data (bad JSON in ingredient/additive fields) degrades
gracefully to an empty structure" (§7): a JSON object yields its fields,
anything else yields the empty object. -/
def asJsonObject : Option AVal → JObj
  | some (AVal.obj fields) => fields
  | _ => []

/-- Writing one key of a JS object (the effect of `{...o, k: v}`): an
existing key keeps its position and is overwritten, a new key is
appended.  JS object keys are unique, so overwriting the first
occurrence models the spread exactly. -/
def setKey : JObj → String → AVal → JObj
  | [], k, v => [(k, v)]
  | kv :: os, k, v =>
      if kv.1 == k then (k, v) :: os else kv :: setKey os k v

/-- Spread-merge `{...a, ...b}` of two JS objects: the keys of `b` are
written over `a` in order. -/
def mergeObj (a b : JObj) : JObj :=
  b.foldl (fun acc kv => setKey acc kv.1 kv.2) a

/-- After `setKey o k v`, looking up `k` yields `v`. -/
lemma lookup_setKey_self (k : String) (v : AVal) :
    ∀ o : JObj, (setKey o k v).lookup k = some v := by
  intro o
  induction o with
  | nil => simp [setKey, List.lookup]
  | cons kv os ih =>
      cases hb : kv.1 == k with
      | true => simp [setKey, hb, List.lookup]
      | false =>
          have hne : k ≠ kv.1 := fun hc => by simp [hc] at hb
          simp [setKey, hb, List.lookup, beq_false_of_ne hne, ih]

/-- Writing key `k` leaves every other key's binding unchanged. -/
lemma lookup_setKey_ne (k : String) (v : AVal) (k' : String) (hk : k' ≠ k) :
    ∀ o : JObj, (setKey o k v).lookup k' = o.lookup k' := by
  intro o
  induction o with
  | nil => simp [setKey, List.lookup, beq_false_of_ne hk]
  | cons kv os ih =>
      cases hb : kv.1 == k with
      | true =>
          have hkv : kv.1 = k := by simpa using hb
          have hk' : (k' == kv.1) = false := beq_false_of_ne (hkv ▸ hk)
          have hk'' : (k' == k) = false := beq_false_of_ne hk
          simp [setKey, hb, List.lookup, hk', hk'']
      | false =>
          cases hk2 : k' == kv.1 with
          | true => simp [setKey, hb, List.lookup, hk2]
          | false => simp [setKey, hb, List.lookup, hk2, ih]

/-- Merging does not touch keys absent from the right operand. -/
lemma lookup_mergeObj_notin (k : String) :
    ∀ (b a : JObj), (∀ kv ∈ b, kv.1 ≠ k) →
      (mergeObj a b).lookup k = a.lookup k := by
  intro b
  induction b with
  | nil => intro a _; rfl
  | cons kv bs ih =>
      intro a h
      have hstep : mergeObj a (kv :: bs) = mergeObj (setKey a kv.1 kv.2) bs := rfl
      rw [hstep, ih _ fun kv' hkv' => h kv' (List.mem_cons_of_mem kv hkv')]
      exact lookup_setKey_ne kv.1 kv.2 k
        (fun hc => h kv (List.mem_cons_self kv bs) hc.symm) a

/-- Merging writes every key of the right operand (keys assumed unique,
as they are in a JS object literal). -/
lemma lookup_mergeObj_mem (k : String) (v : AVal) :
    ∀ (b a : JObj), (b.map Prod.fst).Nodup → (k, v) ∈ b →
      (mergeObj a b).lookup k = some v := by
  intro b
  induction b with
  | nil => intro a _ h; cases h
  | cons kv bs ih =>
      intro a hnd hm
      have hstep : mergeObj a (kv :: bs) = mergeObj (setKey a kv.1 kv.2) bs := rfl
      have hnd' : (bs.map Prod.fst).Nodup := (List.nodup_cons.mp hnd).2
      rcases List.mem_cons.mp hm with h | h
      · have hk : kv.1 = k := by rw [← h]
        have hv : kv.2 = v := by rw [← h]
        have hnotin : ∀ kv' ∈ bs, kv'.1 ≠ k := by
          intro kv' hkv' hc
          have : kv.1 ∈ bs.map Prod.fst := by
            rw [hk, ← hc]
            exact List.mem_map_of_mem Prod.fst hkv'
          exact (List.nodup_cons.mp hnd).1 this
        rw [hstep, lookup_mergeObj_notin k bs _ hnotin, hk, hv]
        exact lookup_setKey_self k v a
      · exact hstep ▸ ih (setKey a kv.1 kv.2) hnd' h

/-- The service-relevant process state: the meal store (the external
collaborator's table), the id counter it assigns, and the two
module-level caches (`mealsCache` and `userStatsCache`). -/
structure SState where
  store : List StoredMeal
  nextId : Nat
  mealsCache : List (String × CacheEntry)
  statsCache : List (String × CacheEntry)

/-- The mutation `NutritionService.saveMeal` (lines 380–400): write the mapped row
through to the store and return its client transform.  The field
mapping (`mapMealDataToPrismaFields`) and the client transform do not
read or write the caches, so the row is taken already mapped; note that
`saveMeal` clears neither cache. -/
def saveMeal (st : SState) (row : StoredMeal) : SState × StoredMeal :=
  ({ st with store := st.store ++ [row] }, row)

/-- The mutation `NutritionService.updateMeal` (lines 274–378), cache-relevant core:
the meal must exist and belong to the caller, the re-analysis result
(produced by the external AI collaborator, taken as the `newNutr`
argument) replaces the row, and on success only the *meals* cache is
cleared (`clearUserMealsCaches`, line 371). -/
def updateMeal (st : SState) (user_id : String) (meal_id : Nat)
    (newNutr : List (String × Option ℚ)) :
    Except String (SState × StoredMeal) :=
  match st.store.find? fun m => m.meal_id == meal_id && m.user_id == user_id with
  | none => .error "Meal not found or access denied"
  | some meal =>
      let updated := { meal with nutr := newNutr }
      let store := st.store.map fun m =>
        if m.meal_id == meal.meal_id then updated else m
      .ok ({ st with
              store := store
              mealsCache := clearUserCaches st.mealsCache user_id }, updated)

/-- The mutation `NutritionService.saveMealFeedback` (lines 825–861): find the owned
meal, merge the supplied feedback over the existing feedback object
inside `additives_json` (stamping `updatedAt`), write the row back, and
clear only the *statistics* cache (`clearUserCaches`, line 854). -/
def saveMealFeedback (st : SState) (user_id : String) (meal_id : Nat)
    (feedback : JObj) (nowIso : String) :
    Except String (SState × Nat × JObj) :=
  match st.store.find? fun m => m.meal_id == meal_id && m.user_id == user_id with
  | none => .error "Meal not found"
  | some meal =>
      let additives := asJsonObject (some meal.additives)
      let existingFeedback := asJsonObject (additives.lookup "feedback")
      let updatedAdditives :=
        setKey additives "feedback"
          (AVal.obj (setKey (mergeObj existingFeedback feedback)
            "updatedAt" (AVal.str nowIso)))
      let store := st.store.map fun m =>
        if m.meal_id == meal.meal_id
        then { m with additives := AVal.obj updatedAdditives } else m
      .ok ({ st with
              store := store
              statsCache := clearUserCaches st.statsCache user_id },
           meal_id, feedback)

/-- The mutation `NutritionService.toggleMealFavorite` (lines 863–892): find the
owned meal, negate `Boolean(additives.isFavorite)`, persist the negated
flag (stamping `favoriteUpdatedAt`), clear only the *statistics* cache
(line 885), and return the negated flag. -/
def toggleMealFavorite (st : SState) (user_id : String) (meal_id : Nat)
    (nowIso : String) : Except String (SState × Nat × Bool) :=
  match st.store.find? fun m => m.meal_id == meal_id && m.user_id == user_id with
  | none => .error "Meal not found"
  | some meal =>
      let additives := asJsonObject (some meal.additives)
      let current := jsTruthy (additives.lookup "isFavorite")
      let updatedAdditives :=
        setKey (setKey additives "isFavorite" (AVal.bool (!current)))
          "favoriteUpdatedAt" (AVal.str nowIso)
      let store := st.store.map fun m =>
        if m.meal_id == meal.meal_id
        then { m with additives := AVal.obj updatedAdditives } else m
      .ok ({ st with
              store := store
              statsCache := clearUserCaches st.statsCache user_id },
           meal_id, !current)

/-- Modelled from the spec: `mapExistingMealToPrismaInput` is imported
from `src/server/src/utils/nutrition.ts`, which is not among the
provided sources.  Per the spec (§8), duplication "produces a new record
with that date and the original's nutrient fields". -/
def mapExistingMealToPrismaInput (orig : StoredMeal) (u : String)
    (date : Nat) (newId : Nat) : StoredMeal :=
  { orig with meal_id := newId, user_id := u, created_at := date }

/-- The mutation `NutritionService.duplicateMeal` (lines 894–922): find the owned
meal, create a copy at the requested date, and clear only the
*statistics* cache (line 915). -/
def duplicateMeal (st : SState) (user_id : String) (meal_id : Nat)
    (newDate : Nat) : Except String (SState × StoredMeal) :=
  match st.store.find? fun m => m.meal_id == meal_id && m.user_id == user_id with
  | none => .error "Meal not found"
  | some orig =>
      let dup := mapExistingMealToPrismaInput orig user_id newDate st.nextId
      .ok ({ st with
              store := st.store ++ [dup]
              nextId := st.nextId + 1
              statsCache := clearUserCaches st.statsCache user_id }, dup)

/-- C9: for an owned meal, `saveMealFeedback` merges the supplied
feedback into the existing feedback object inside the meal's additives
attachment: every additives key other than `feedback` (for example
`isFavorite`) is written back unchanged, every existing feedback key not
named in the supplied feedback is preserved, every supplied field takes
effect, and an `updatedAt` stamp is written; the call returns the meal
id and the supplied feedback. -/
theorem claim_C9_feedback_merge (st : SState) (u : String) (mid : Nat)
    (fb : JObj) (nowIso : String) (meal : StoredMeal)
    (h : st.store.find? (fun m => m.meal_id == mid && m.user_id == u)
      = some meal)
    (hnd : (fb.map Prod.fst).Nodup) :
    ∃ st2 : SState,
      saveMealFeedback st u mid fb nowIso = Except.ok (st2, mid, fb) ∧
      ∀ m2 ∈ st2.store, m2.meal_id = meal.meal_id →
        ∃ newFb : JObj,
          (asJsonObject (some m2.additives)).lookup "feedback"
            = some (AVal.obj newFb) ∧
          (∀ k, k ≠ "feedback" →
            (asJsonObject (some m2.additives)).lookup k
              = (asJsonObject (some meal.additives)).lookup k) ∧
          (∀ k, k ∉ fb.map Prod.fst → k ≠ "updatedAt" →
            newFb.lookup k
              = (asJsonObject ((asJsonObject
                  (some meal.additives)).lookup "feedback")).lookup k) ∧
          (∀ k v, (k, v) ∈ fb → k ≠ "updatedAt" →
            newFb.lookup k = some v) ∧
          newFb.lookup "updatedAt" = some (AVal.str nowIso) := by
  refine ⟨_, by simp only [saveMealFeedback, h]; rfl, ?_⟩
  intro m2 hm2 hid
  obtain ⟨m0, hm0, rfl⟩ := List.mem_map.mp hm2
  cases hcond : m0.meal_id == meal.meal_id with
  | false =>
      exfalso
      rw [if_neg (by simp [hcond])] at hid
      exact absurd hid (by simpa using hcond)
  | true =>
      rw [if_pos (by simp [hcond])] at hid ⊢
      refine ⟨setKey
        (mergeObj (asJsonObject ((asJsonObject
          (some meal.additives)).lookup "feedback")) fb)
        "updatedAt" (AVal.str nowIso), ?_, ?_, ?_, ?_, ?_⟩
      · exact lookup_setKey_self _ _ _
      · intro k hk
        exact lookup_setKey_ne _ _ k hk _
      · intro k hknot hkupd
        rw [lookup_setKey_ne _ _ k hkupd]
        exact lookup_mergeObj_notin k fb _
          fun kv hkv hc => hknot (hc ▸ List.mem_map_of_mem Prod.fst hkv)
      · intro k v hkv hkupd
        rw [lookup_setKey_ne _ _ k hkupd]
        exact lookup_mergeObj_mem k v fb _ hnd hkv
      · exact lookup_setKey_self _ _ _

/-- The concrete meal used by the C9 witness: favorite flag set, one
existing feedback rating. -/
def mealW9 : StoredMeal :=
  { meal_id := 1, user_id := "u1", created_at := 0, nutr := [],
    additives := AVal.obj
      [("isFavorite", AVal.bool true),
       ("feedback", AVal.obj [("tasteRating", AVal.num 4)])] }

/-- The concrete service state used by the C9 witness. -/
def stW9 : SState :=
  { store := [mealW9], nextId := 2, mealsCache := [], statsCache := [] }

/-- Witness for C9: merging `{energyRating: 5}` into a meal whose
additives hold `isFavorite: true` and `feedback: {tasteRating: 4}`. -/
theorem claim_C9_feedback_merge_witness :
    ∃ st2 : SState,
      saveMealFeedback stW9 "u1" 1 [("energyRating", AVal.num 5)] "T"
        = Except.ok (st2, 1, [("energyRating", AVal.num 5)]) ∧
      ∀ m2 ∈ st2.store, m2.meal_id = mealW9.meal_id →
        ∃ newFb : JObj,
          (asJsonObject (some m2.additives)).lookup "feedback"
            = some (AVal.obj newFb) ∧
          (∀ k, k ≠ "feedback" →
            (asJsonObject (some m2.additives)).lookup k
              = (asJsonObject (some mealW9.additives)).lookup k) ∧
          (∀ k, k ∉ [("energyRating", AVal.num 5)].map Prod.fst →
            k ≠ "updatedAt" →
            newFb.lookup k
              = (asJsonObject ((asJsonObject
                  (some mealW9.additives)).lookup "feedback")).lookup k) ∧
          (∀ k v, (k, v) ∈ [("energyRating", AVal.num 5)] →
            k ≠ "updatedAt" → newFb.lookup k = some v) ∧
          newFb.lookup "updatedAt" = some (AVal.str "T") :=
  claim_C9_feedback_merge stW9 "u1" 1 [("energyRating", AVal.num 5)] "T"
    mealW9 rfl (by simp)

/-- Searching a list commutes with a map that preserves the predicate. -/
lemma find?_map_pres {α : Type} (g : α → α) (p : α → Bool)
    (hp : ∀ x, p (g x) = p x) :
    ∀ l : List α, (l.map g).find? p = (l.find? p).map g := by
  intro l
  induction l with
  | nil => rfl
  | cons x xs ih =>
      cases hpx : p x with
      | true =>
          rw [List.map_cons, List.find?_cons_of_pos _ ((hp x).trans hpx),
            List.find?_cons_of_pos _ hpx, Option.map_some']
      | false =>
          rw [List.map_cons,
            List.find?_cons_of_neg _ (by simp [(hp x).trans hpx]),
            List.find?_cons_of_neg _ (by simp [hpx]), ih]

/-- One successful `toggleMealFavorite`: returns the negated truthiness
of the stored flag, persists exactly that boolean, and the updated row
is found again by the same owner/id query. -/
lemma toggle_step (st : SState) (u : String) (mid : Nat) (now : String)
    (meal : StoredMeal)
    (h : st.store.find? (fun m => m.meal_id == mid && m.user_id == u)
      = some meal) :
    ∃ st2 : SState, ∃ meal2 : StoredMeal,
      toggleMealFavorite st u mid now = Except.ok (st2, mid,
        !(jsTruthy ((asJsonObject (some meal.additives)).lookup
          "isFavorite"))) ∧
      st2.store.find? (fun m => m.meal_id == mid && m.user_id == u)
        = some meal2 ∧
      meal2.meal_id = meal.meal_id ∧
      (asJsonObject (some meal2.additives)).lookup "isFavorite"
        = some (AVal.bool (!(jsTruthy ((asJsonObject
            (some meal.additives)).lookup "isFavorite")))) ∧
      (∀ m2 ∈ st2.store, m2.meal_id = meal.meal_id →
        (asJsonObject (some m2.additives)).lookup "isFavorite"
          = some (AVal.bool (!(jsTruthy ((asJsonObject
              (some meal.additives)).lookup "isFavorite"))))) := by
  refine ⟨_,
    { meal with additives := AVal.obj (setKey (setKey
        (asJsonObject (some meal.additives)) "isFavorite"
        (AVal.bool (!(jsTruthy ((asJsonObject (some meal.additives)).lookup
          "isFavorite"))))) "favoriteUpdatedAt" (AVal.str now)) },
    by simp only [toggleMealFavorite, h]; rfl, ?_, by simp, ?_, ?_⟩
  · show (st.store.map _).find? _ = _
    rw [find?_map_pres _ _
      (fun x => by
        by_cases hx : (x.meal_id == meal.meal_id) = true
        · simp [hx]
        · simp [hx]) st.store, h]
    simp
  · exact (lookup_setKey_ne _ _ _ (by decide) _).trans
      (lookup_setKey_self _ _ _)
  · intro m2 hm2 hid
    obtain ⟨m0, hm0, rfl⟩ := List.mem_map.mp hm2
    cases hcond : m0.meal_id == meal.meal_id with
    | false =>
        exfalso
        rw [if_neg (by simp [hcond])] at hid
        exact absurd hid (by simpa using hcond)
    | true =>
        rw [if_pos (by simp [hcond])]
        exact (lookup_setKey_ne _ _ _ (by decide) _).trans
          (lookup_setKey_self _ _ _)

/-- C10 (amended): `toggleMealFavorite` returns the negation of the
JavaScript truthiness of the stored `additives.isFavorite` value
(missing, `false`, `0`, `""` and `null` count as false; any truthy
value — including non-boolean truthy values — counts as true), persists
exactly that negated boolean, and applying it twice restores the stored
flag to the truthiness of the original value. -/
theorem claim_C10_favorite_toggle (st : SState) (u : String) (mid : Nat)
    (t1 t2 : String) (meal : StoredMeal)
    (h : st.store.find? (fun m => m.meal_id == mid && m.user_id == u)
      = some meal) :
    ∃ st2 st3 : SState,
      toggleMealFavorite st u mid t1 = Except.ok (st2, mid,
        !(jsTruthy ((asJsonObject (some meal.additives)).lookup
          "isFavorite"))) ∧
      (∀ m2 ∈ st2.store, m2.meal_id = meal.meal_id →
        (asJsonObject (some m2.additives)).lookup "isFavorite"
          = some (AVal.bool (!(jsTruthy ((asJsonObject
              (some meal.additives)).lookup "isFavorite"))))) ∧
      toggleMealFavorite st2 u mid t2 = Except.ok (st3, mid,
        jsTruthy ((asJsonObject (some meal.additives)).lookup
          "isFavorite")) ∧
      (∀ m3 ∈ st3.store, m3.meal_id = meal.meal_id →
        (asJsonObject (some m3.additives)).lookup "isFavorite"
          = some (AVal.bool (jsTruthy ((asJsonObject
              (some meal.additives)).lookup "isFavorite")))) := by
  obtain ⟨st2, meal2, hT1, hfind2, hid2, hflag2, hall2⟩ :=
    toggle_step st u mid t1 meal h
  obtain ⟨st3, meal3, hT2, hfind3, hid3, hflag3, hall3⟩ :=
    toggle_step st2 u mid t2 meal2 hfind2
  refine ⟨st2, st3, hT1, hall2, ?_, ?_⟩
  · rw [hT2, hflag2]
    simp [jsTruthy]
  · intro m3 hm3 hid'
    have hm := hall3 m3 hm3 (hid'.trans hid2.symm)
    rw [hflag2] at hm
    simpa [jsTruthy] using hm

/-- The meal used by the C10 counterexample: the stored favorite flag is
the non-boolean truthy string `"yes"`. -/
def mealX10 : StoredMeal :=
  { meal_id := 1, user_id := "u1", created_at := 0, nutr := [],
    additives := AVal.obj [("isFavorite", AVal.str "yes")] }

/-- The service state used by the C10 counterexample. -/
def stX10 : SState :=
  { store := [mealX10], nextId := 2, mealsCache := [], statsCache := [] }

/-- C10 counterexample: the claim says a non-boolean stored flag is
treated as `false`, so toggling should return `true`.  The stored flag
here is the truthy string `"yes"`: `Boolean("yes")` is `true`, so the
code returns `false` and persists `false`. -/
theorem claim_C10_counterexample :
    (toggleMealFavorite stX10 "u1" 1 "T").map (fun r => r.2.2)
      = Except.ok false ∧
    (toggleMealFavorite stX10 "u1" 1 "T").map (fun r =>
        r.1.store.map fun m =>
          (asJsonObject (some m.additives)).lookup "isFavorite")
      = Except.ok [some (AVal.bool false)] ∧
    jsTruthy (some (AVal.str "yes")) = true := by
  refine ⟨rfl, rfl, rfl⟩

/-- The meal used by the C10 witness: favorite flag stored as the
boolean `true`. -/
def mealW10 : StoredMeal :=
  { meal_id := 1, user_id := "u1", created_at := 0, nutr := [],
    additives := AVal.obj [("isFavorite", AVal.bool true)] }

/-- The service state used by the C10 witness. -/
def stW10 : SState :=
  { store := [mealW10], nextId := 2, mealsCache := [], statsCache := [] }

/-- Witness for C10 (amended): toggling a meal whose stored flag is
`true` returns `false`, and toggling again returns `true` — the double
toggle restores the original truthiness. -/
theorem claim_C10_favorite_toggle_witness :
    ∃ st2 st3 : SState,
      toggleMealFavorite stW10 "u1" 1 "T1" = Except.ok (st2, 1, false) ∧
      toggleMealFavorite st2 "u1" 1 "T2" = Except.ok (st3, 1, true) := by
  obtain ⟨st2, st3, h1, _, h3, _⟩ :=
    claim_C10_favorite_toggle stW10 "u1" 1 "T1" "T2" mealW10 rfl
  refine ⟨st2, st3, ?_, ?_⟩
  · simpa [mealW10, asJsonObject, jsTruthy, List.lookup] using h1
  · simpa [mealW10, asJsonObject, jsTruthy, List.lookup] using h3

/-- The owned meal present in the C1 demonstration state. -/
def mealC1 : StoredMeal :=
  { meal_id := 1, user_id := "u1", created_at := 0, nutr := [],
    additives := AVal.null }

/-- The C1 demonstration state: the owner has one entry in *each*
cache, as `getUserMeals` and `getRangeStatistics` would leave behind. -/
def stC1 : SState :=
  { store := [mealC1], nextId := 2,
    mealsCache := [(mealsCacheKey "u1" 0 100, CacheEntry.mk 0 0)],
    statsCache :=
      [(statsCacheKey "u1" "2025-01-01" "2025-01-31", CacheEntry.mk 0 0)] }

/-- The new row given to `saveMeal` in the C1 demonstration. -/
def rowC1 : StoredMeal :=
  { meal_id := 2, user_id := "u1", created_at := 0, nutr := [],
    additives := AVal.null }

/-- C1: evaluation at the failing input.  Every mutation returns
successfully, yet none of them leaves *both* caches empty for the
owner: `saveMeal` clears neither cache; `updateMeal` clears only the
meals cache; `saveMealFeedback`, `toggleMealFavorite` and
`duplicateMeal` clear only the statistics cache.  The claim requires
both caches to hold no entry for the owner at return. -/
theorem claim_C1_mutations_do_not_clear_both_caches :
    ((saveMeal stC1 rowC1).1.mealsCache = stC1.mealsCache ∧
     (saveMeal stC1 rowC1).1.statsCache = stC1.statsCache) ∧
    ((updateMeal stC1 "u1" 1 []).map fun r =>
        (r.1.mealsCache, r.1.statsCache))
      = Except.ok ([], stC1.statsCache) ∧
    ((saveMealFeedback stC1 "u1" 1 [] "T").map fun r =>
        (r.1.mealsCache, r.1.statsCache))
      = Except.ok (stC1.mealsCache, []) ∧
    ((toggleMealFavorite stC1 "u1" 1 "T").map fun r =>
        (r.1.mealsCache, r.1.statsCache))
      = Except.ok (stC1.mealsCache, []) ∧
    ((duplicateMeal stC1 "u1" 1 0).map fun r =>
        (r.1.mealsCache, r.1.statsCache))
      = Except.ok (stC1.mealsCache, []) ∧
    stC1.mealsCache ≠ [] ∧ stC1.statsCache ≠ [] := by
  refine ⟨⟨rfl, rfl⟩, rfl, rfl, rfl, rfl, by simp [stC1], by simp [stC1]⟩
